import Mathlib

/-!
Shallow embedding of the Points & Rewards Ledger of the travel-assistant
backend (src/lib/gamification and the gamification tool handlers), together
with proofs about its behaviour.

Modelling notes, recorded once here:
* The D1/SQLite database is modelled as in-memory lists of rows threaded
  through every operation; each drizzle call (select / insert / update)
  becomes one pure operation on that state.
* `crypto.randomUUID()` is modelled by a fresh-identifier counter carried in
  the database state; achievement ids produced from it are unique but
  otherwise uninterpreted.
* Wall-clock timestamp columns (`created_at`, `updated_at`, `unlocked_at`)
  are omitted: no property below mentions them.
* JavaScript `x || d` on the integer columns (`totalPoints || 0`,
  `level || 1`) is modelled by `orDefault`: the fallback fires exactly when
  the stored value is 0 (the NULL case never arises because every row the
  ledger writes carries explicit values).
* `Math.floor(totalPoints / 50)` on JS numbers is floor division, i.e.
  `Int.fdiv` on our integer model.
* In the achievement existence query the source chains two `.where` calls on
  one drizzle select builder; in drizzle-orm a second `.where` replaces the
  first, so the executed filter is on `achievement_type` alone.  The
  embedding `findExistingAchievement` reflects the executed query.
-/

namespace TravelAssistant

/-- One row of the static reward catalog in `checkUnlockedRewards`. -/
structure RewardEntry where
  points : Int
  type : String
  name : String
deriving DecidableEq

/-- The `rewardThresholds` array of `checkUnlockedRewards`. -/
def rewardThresholds : List RewardEntry :=
  [⟨50, "restaurant_recommendations", "Restaurant Finder"⟩,
   ⟨100, "hidden_gems", "Hidden Gems Discovery"⟩,
   ⟨200, "food_specialties", "Local Food Specialties"⟩,
   ⟨300, "photography_spots", "Photography Spots"⟩]

/-- One row of the `users` table. -/
structure UserRec where
  id : String
  email : String
  name : String
  totalPoints : Int
  level : Int
deriving DecidableEq

/-- One row of the `achievements` table (timestamp column omitted). -/
structure AchRec where
  id : String
  userId : String
  achievementType : String
  pointsRequired : Int
deriving DecidableEq

/-- The database state: the two tables the ledger touches, plus the
fresh-identifier counter standing in for `crypto.randomUUID()`. -/
structure DB where
  users : List UserRec
  achievements : List AchRec
  nextId : Nat
deriving DecidableEq

/-- The empty database. -/
def dbEmpty : DB := ⟨[], [], 0⟩

/-- JavaScript `x || d` on an integer column: `d` when the value is 0. -/
def orDefault (x d : Int) : Int := if x = 0 then d else x

/-- A fresh achievement id drawn from the counter. -/
def freshId (n : Nat) : String := "uuid-" ++ toString n

/-- The user select `.where(eq(users.id, userId)).get()`. -/
def getUser (db : DB) (userId : String) : Option UserRec :=
  db.users.find? (fun u => u.id == userId)

/-- Insert of a new `users` row. -/
def insertUser (db : DB) (u : UserRec) : DB :=
  { db with users := db.users ++ [u] }

/-- The update `.set({totalPoints, level}).where(eq(users.id, userId))`. -/
def updateUser (db : DB) (userId : String) (newTotal newLevel : Int) : DB :=
  { db with users := db.users.map (fun u =>
      if u.id == userId then { u with totalPoints := newTotal, level := newLevel } else u) }

/-- The achievement existence query in `checkUnlockedRewards`.  The source
chains `.where(eq(achievements.userId, userId)).where(eq(achievements.achievementType, t))`;
drizzle executes only the last `.where`, so the filter is on the type alone. -/
def findExistingAchievement (db : DB) (achievementType : String) : Option AchRec :=
  db.achievements.find? (fun a => a.achievementType == achievementType)

/-- Insert of a new `achievements` row for a crossed catalog entry. -/
def insertAchievement (db : DB) (userId : String) (reward : RewardEntry) : DB :=
  { db with
    achievements := db.achievements ++ [⟨freshId db.nextId, userId, reward.type, reward.points⟩],
    nextId := db.nextId + 1 }

/-- `calculateLevel`: `Math.floor(totalPoints / 50) + 1`. -/
def calculateLevel (totalPoints : Int) : Int :=
  totalPoints.fdiv 50 + 1

/-- The body of the `for (const reward of rewardThresholds)` loop of
`checkUnlockedRewards`, recursing over the remaining catalog entries. -/
def checkUnlockedRewardsAux (userId : String) (oldTotal newTotal : Int) :
    DB → List RewardEntry → DB × List String
  | db, [] => (db, [])
  | db, reward :: rest =>
      if oldTotal < reward.points ∧ reward.points ≤ newTotal then
        match findExistingAchievement db reward.type with
        | some _ => checkUnlockedRewardsAux userId oldTotal newTotal db rest
        | none =>
            let r := checkUnlockedRewardsAux userId oldTotal newTotal
              (insertAchievement db userId reward) rest
            (r.1, reward.name :: r.2)
      else
        checkUnlockedRewardsAux userId oldTotal newTotal db rest

/-- `checkUnlockedRewards(db, userId, oldTotal, newTotal)`. -/
def checkUnlockedRewards (db : DB) (userId : String) (oldTotal newTotal : Int) :
    DB × List String :=
  checkUnlockedRewardsAux userId oldTotal newTotal db rewardThresholds

/-- The record returned by `awardPoints`. -/
structure AwardResult where
  newTotal : Int
  levelsGained : Int
  unlockedRewards : List String
deriving DecidableEq

/-- Phase 1 of `awardPoints`: the initial select of the user row. -/
def awardRead (db : DB) (userId : String) : Option UserRec :=
  getUser db userId

/-- `awardPoints`, user-absent branch: create the row with the given points
and a hardcoded level of 1, and return without any achievement check. -/
def awardCreate (db : DB) (userId : String) (points : Int) : DB × AwardResult :=
  (insertUser db
    { id := userId
      email := "user" ++ userId ++ "@example.com"
      name := "User " ++ userId
      totalPoints := points
      level := 1 },
   { newTotal := points, levelsGained := 0, unlockedRewards := [] })

/-- `awardPoints`, user-present branch: compute the new totals from the row
read in phase 1, write them, then run the achievement pass. -/
def awardUpdate (db : DB) (userId : String) (points : Int) (currentUser : UserRec) :
    DB × AwardResult :=
  let oldTotal := orDefault currentUser.totalPoints 0
  let newTotal := oldTotal + points
  let oldLevel := orDefault currentUser.level 1
  let newLevel := calculateLevel newTotal
  let levelsGained := newLevel - oldLevel
  let db1 := updateUser db userId newTotal newLevel
  let r := checkUnlockedRewards db1 userId oldTotal newTotal
  (r.1, { newTotal := newTotal, levelsGained := levelsGained, unlockedRewards := r.2 })

/-- `awardPoints(db, userId, points, action)`: the action tag is used only
for logging and does not influence the state, so it is not a parameter. -/
def awardPoints (db : DB) (userId : String) (points : Int) : DB × AwardResult :=
  match awardRead db userId with
  | none => awardCreate db userId points
  | some currentUser => awardUpdate db userId points currentUser

/-- One interleaving of two concurrent `awardPoints` calls for the same
user: both calls perform their phase-1 select before either performs its
write phase, then the two write phases run one after the other.  Each phase
is exactly the corresponding phase of `awardPoints`.  Defined only when both
calls find an existing row (so neither takes the create branch). -/
def awardPointsRace (db : DB) (userId : String) (p q : Int) :
    Option (DB × AwardResult × AwardResult) :=
  match awardRead db userId, awardRead db userId with
  | some uA, some uB =>
      let rA := awardUpdate db userId p uA
      let rB := awardUpdate rA.1 userId q uB
      some (rB.1, rA.2, rB.2)
  | _, _ => none

/-- A sequence of `awardPoints` calls run one after the other. -/
def awardSeq : DB → List (String × Int) → DB
  | db, [] => db
  | db, (u, p) :: rest => awardSeq (awardPoints db u p).1 rest

/-- At most one `achievements` row per (userId, achievementType) pair. -/
def PairUnique (db : DB) : Prop :=
  db.achievements.Pairwise
    (fun a b => ¬(a.userId = b.userId ∧ a.achievementType = b.achievementType))

/-- The `rewards` array of `getNextReward`. -/
def nextRewardList : List (Int × String) :=
  [(50, "Restaurant Finder"),
   (100, "Hidden Gems Discovery"),
   (200, "Local Food Specialties"),
   (300, "Photography Spots")]

/-- The `for (const reward of rewards)` loop of `getNextReward`. -/
def getNextRewardAux : List (Int × String) → Int → String × Int
  | [], _ => ("All rewards unlocked!", 0)
  | (pts, name) :: rest, currentPoints =>
      if currentPoints < pts then (name, pts - currentPoints)
      else getNextRewardAux rest currentPoints

/-- `getNextReward(currentPoints)`: the name and `pointsNeeded` returned. -/
def getNextReward (currentPoints : Int) : String × Int :=
  getNextRewardAux nextRewardList currentPoints

/-- The record returned by `getUserProgress`; the `nextReward` object is
flattened into its two fields. -/
structure ProgressResult where
  points : Int
  level : Int
  achievements : List String
  nextRewardName : String
  nextRewardPointsNeeded : Int
deriving DecidableEq

/-- `getUserProgress(db, userId)`.  The database is threaded through and
returned so that the absence of writes is part of the statement; the source
performs only selects on this path. -/
def getUserProgress (db : DB) (userId : String) : DB × ProgressResult :=
  match getUser db userId with
  | none =>
      (db, { points := 0, level := 1, achievements := [],
             nextRewardName := "Restaurant Finder", nextRewardPointsNeeded := 50 })
  | some user =>
      let userAchievements := db.achievements.filter (fun a => a.userId == userId)
      let totalPoints := orDefault user.totalPoints 0
      let nr := getNextReward totalPoints
      (db, { points := totalPoints
             level := orDefault user.level 1
             achievements := userAchievements.map (fun a => a.achievementType)
             nextRewardName := nr.1
             nextRewardPointsNeeded := nr.2 })

/-- Outcome of the `unlock_reward` tool handler. -/
inductive UnlockOutcome where
  | error (msg : String)
  | insufficient (requiredPoints currentPoints pointsNeeded : Int)
  | success (rewardType : String)
deriving DecidableEq

/-- The `rewardRequirements` map of the `unlock_reward` handler. -/
def rewardRequirements : List (String × Int) :=
  [("restaurant_recommendations", 50),
   ("hidden_gems", 100),
   ("food_specialties", 200),
   ("photography_spots", 300)]

/-- Lookup of `rewardRequirements[rewardType]`. -/
def lookupRequired (rewardType : String) : Option Int :=
  (rewardRequirements.find? (fun r => r.1 == rewardType)).map (fun r => r.2)

/-- The `unlock_reward` tool handler.  An unknown reward type yields
`undefined` required points in the source; the JS comparison
`points < undefined` is false, so the handler proceeds to the fallback
reward content — modelled by the success branch of the `none` case. -/
def unlockRewardHandler (db : DB) (userId rewardType : String) : DB × UnlockOutcome :=
  if userId == "" || userId == "anonymous" then
    (db, UnlockOutcome.error "User ID is required to unlock rewards")
  else
    let r := getUserProgress db userId
    match lookupRequired rewardType with
    | some requiredPoints =>
        if r.2.points < requiredPoints then
          (r.1, UnlockOutcome.insufficient requiredPoints r.2.points
            (requiredPoints - r.2.points))
        else
          (r.1, UnlockOutcome.success rewardType)
    | none => (r.1, UnlockOutcome.success rewardType)

/-! ### Helper lemmas -/

theorem orDefault_zero (x : Int) : orDefault x 0 = x := by
  unfold orDefault; split <;> omega

theorem orDefault_of_ne {x d : Int} (h : x ≠ 0) : orDefault x d = x := by
  unfold orDefault; split <;> omega

theorem calculateLevel_eq (p : Int) : calculateLevel p = p / 50 + 1 := by
  unfold calculateLevel
  rw [Int.fdiv_eq_ediv p (by omega)]

theorem calculateLevel_mono {a b : Int} (h : a ≤ b) :
    calculateLevel a ≤ calculateLevel b := by
  rw [calculateLevel_eq, calculateLevel_eq]; omega

theorem calculateLevel_pos {p : Int} (h : 0 ≤ p) : 0 < calculateLevel p := by
  rw [calculateLevel_eq]; omega

theorem checkUnlockedRewardsAux_users (userId : String) (oldTotal newTotal : Int)
    (rs : List RewardEntry) : ∀ db : DB,
    (checkUnlockedRewardsAux userId oldTotal newTotal db rs).1.users = db.users := by
  induction rs with
  | nil => intro db; rfl
  | cons reward rest ih =>
      intro db
      unfold checkUnlockedRewardsAux
      split
      · cases hfe : findExistingAchievement db reward.type with
        | some a => simp only [hfe]; exact ih db
        | none =>
            simp only [hfe]
            exact ih (insertAchievement db userId reward)
      · exact ih db

theorem checkUnlockedRewardsAux_achievements_sub (userId : String)
    (oldTotal newTotal : Int) (rs : List RewardEntry) : ∀ db : DB, ∀ a ∈ db.achievements,
    a ∈ (checkUnlockedRewardsAux userId oldTotal newTotal db rs).1.achievements := by
  induction rs with
  | nil => intro db a ha; exact ha
  | cons reward rest ih =>
      intro db a ha
      unfold checkUnlockedRewardsAux
      split
      · cases hfe : findExistingAchievement db reward.type with
        | some b => simp only [hfe]; exact ih db a ha
        | none =>
            simp only [hfe]
            exact ih (insertAchievement db userId reward) a
              (by simp [insertAchievement, ha])
      · exact ih db a ha

theorem findExistingAchievement_none {db : DB} {t : String}
    (h : findExistingAchievement db t = none) :
    ∀ a ∈ db.achievements, a.achievementType ≠ t := by
  intro a ha
  have := List.find?_eq_none.mp h a ha
  simpa using this

/-- If some row of the given achievement type already exists, the loop of
`checkUnlockedRewards` neither inserts a row of that type nor pushes the
name of a catalog entry of that type. -/
theorem checkUnlockedRewardsAux_suppress (userId : String) (oldTotal newTotal : Int)
    (rs : List RewardEntry) : ∀ db : DB, ∀ t : String,
    (∃ a ∈ db.achievements, a.achievementType = t) →
    (∀ a ∈ (checkUnlockedRewardsAux userId oldTotal newTotal db rs).1.achievements,
        a.achievementType = t → a ∈ db.achievements) ∧
    (∀ n ∈ (checkUnlockedRewardsAux userId oldTotal newTotal db rs).2,
        ∃ e ∈ rs, e.name = n ∧ e.type ≠ t) := by
  induction rs with
  | nil => intro db t _; exact ⟨fun a ha _ => ha, by simp [checkUnlockedRewardsAux]⟩
  | cons reward rest ih =>
      intro db t hex
      unfold checkUnlockedRewardsAux
      split
      · cases hfe : findExistingAchievement db reward.type with
        | some b =>
            simp only [hfe]
            obtain ⟨h1, h2⟩ := ih db t hex
            exact ⟨h1, fun n hn => by
              obtain ⟨e, he, hne⟩ := h2 n hn
              exact ⟨e, List.mem_cons_of_mem _ he, hne⟩⟩
        | none =>
            simp only [hfe]
            obtain ⟨a0, ha0, ha0t⟩ := hex
            have hneq : reward.type ≠ t := by
              intro hcontra
              exact findExistingAchievement_none hfe a0 ha0 (hcontra ▸ ha0t)
            have hex' : ∃ a ∈ (insertAchievement db userId reward).achievements,
                a.achievementType = t :=
              ⟨a0, by simp [insertAchievement, ha0], ha0t⟩
            obtain ⟨h1, h2⟩ := ih (insertAchievement db userId reward) t hex'
            constructor
            · intro a ha hat
              have hmem := h1 a ha hat
              simp only [insertAchievement, List.mem_append, List.mem_singleton] at hmem
              rcases hmem with hmem | hmem
              · exact hmem
              · subst hmem
                exact absurd hat hneq
            · intro n hn
              simp only [List.mem_cons] at hn
              rcases hn with rfl | hn
              · exact ⟨reward, List.mem_cons_self _ _, rfl, hneq⟩
              · obtain ⟨e, he, hne⟩ := h2 n hn
                exact ⟨e, List.mem_cons_of_mem _ he, hne⟩
      · obtain ⟨h1, h2⟩ := ih db t hex
        exact ⟨h1, fun n hn => by
          obtain ⟨e, he, hne⟩ := h2 n hn
          exact ⟨e, List.mem_cons_of_mem _ he, hne⟩⟩

theorem checkUnlockedRewardsAux_pairUnique (userId : String) (oldTotal newTotal : Int)
    (rs : List RewardEntry) : ∀ db : DB, PairUnique db →
    PairUnique (checkUnlockedRewardsAux userId oldTotal newTotal db rs).1 := by
  induction rs with
  | nil => intro db h; exact h
  | cons reward rest ih =>
      intro db h
      unfold checkUnlockedRewardsAux
      split
      · cases hfe : findExistingAchievement db reward.type with
        | some b => simp only [hfe]; exact ih db h
        | none =>
            simp only [hfe]
            apply ih
            unfold PairUnique insertAchievement
            simp only [List.pairwise_append]
            refine ⟨h, List.pairwise_singleton _ _, ?_⟩
            intro a ha b hb
            simp only [List.mem_singleton] at hb
            subst hb
            intro ⟨_, hat⟩
            exact findExistingAchievement_none hfe a ha hat
      · exact ih db h

theorem awardPoints_of_read_some {db : DB} {userId : String} {points : Int} {u : UserRec}
    (h : awardRead db userId = some u) :
    awardPoints db userId points = awardUpdate db userId points u := by
  unfold awardPoints; rw [h]

theorem awardPoints_of_read_none {db : DB} {userId : String} {points : Int}
    (h : awardRead db userId = none) :
    awardPoints db userId points = awardCreate db userId points := by
  unfold awardPoints; rw [h]

theorem awardUpdate_users (db : DB) (userId : String) (points : Int) (u : UserRec) :
    (awardUpdate db userId points u).1.users =
      (updateUser db userId (orDefault u.totalPoints 0 + points)
        (calculateLevel (orDefault u.totalPoints 0 + points))).users :=
  checkUnlockedRewardsAux_users userId _ _ rewardThresholds _

theorem awardUpdate_newTotal (db : DB) (userId : String) (points : Int) (u : UserRec) :
    (awardUpdate db userId points u).2.newTotal = orDefault u.totalPoints 0 + points := rfl

theorem awardUpdate_levelsGained (db : DB) (userId : String) (points : Int) (u : UserRec) :
    (awardUpdate db userId points u).2.levelsGained =
      calculateLevel (orDefault u.totalPoints 0 + points) - orDefault u.level 1 := rfl

theorem awardPoints_pairUnique (db : DB) (userId : String) (points : Int)
    (h : PairUnique db) : PairUnique (awardPoints db userId points).1 := by
  unfold awardPoints
  cases hr : awardRead db userId with
  | none => exact h
  | some u =>
      exact checkUnlockedRewardsAux_pairUnique userId _ _ rewardThresholds _ h

theorem awardSeq_pairUnique (calls : List (String × Int)) :
    ∀ db : DB, PairUnique db → PairUnique (awardSeq db calls) := by
  induction calls with
  | nil => intro db h; exact h
  | cons c rest ih =>
      intro db h
      obtain ⟨cu, cp⟩ := c
      exact ih _ (awardPoints_pairUnique db cu cp h)

theorem awardUpdate_suppress (db : DB) (userId : String) (points : Int) (u : UserRec)
    (t : String) (hex : ∃ a ∈ db.achievements, a.achievementType = t) :
    (∀ a ∈ (awardUpdate db userId points u).1.achievements,
        a.achievementType = t → a ∈ db.achievements) ∧
    (∀ n ∈ (awardUpdate db userId points u).2.unlockedRewards,
        ∃ e ∈ rewardThresholds, e.name = n ∧ e.type ≠ t) :=
  checkUnlockedRewardsAux_suppress userId (orDefault u.totalPoints 0)
    (orDefault u.totalPoints 0 + points) rewardThresholds
    (updateUser db userId (orDefault u.totalPoints 0 + points)
      (calculateLevel (orDefault u.totalPoints 0 + points))) t hex

theorem rewardThresholds_name_inj :
    ∀ e1 ∈ rewardThresholds, ∀ e2 ∈ rewardThresholds,
      e1.name = e2.name → e1.type = e2.type := by
  decide

/-! ### Databases used as concrete inputs -/

/-- One stored user at 0 points. -/
def raceDb : DB := ⟨[⟨"u1", "useru1@example.com", "User u1", 0, 1⟩], [], 0⟩

/-- One stored user at 48 points. -/
def db48 : DB := ⟨[⟨"u", "u@e", "U", 48, 1⟩], [], 0⟩

/-- Bob stands at 95 points while alice already holds the hidden_gems
achievement. -/
def dbCross : DB :=
  ⟨[⟨"bob", "b@e", "Bob", 95, 2⟩], [⟨"a1", "alice", "hidden_gems", 100⟩], 0⟩

/-- The database produced by lazily creating user u1 with 55 points. -/
def db55 : DB := (awardPoints dbEmpty "u1" 55).1

/-- One stored user at 10 points. -/
def db10 : DB := ⟨[⟨"u1", "u1@e", "U1", 10, 1⟩], [], 0⟩

/-- One stored user whose id is the empty string, at 10 points. -/
def dbEmptyId : DB := ⟨[⟨"", "e@e", "E", 10, 1⟩], [], 0⟩

/-- One stored user at 290 points. -/
def db290 : DB := ⟨[⟨"u", "u@e", "U", 290, 6⟩], [], 0⟩

/-- One stored user at 300 points. -/
def db300 : DB := ⟨[⟨"u", "u@e", "U", 300, 7⟩], [], 0⟩

/-- One stored user at 120 points. -/
def db120 : DB := ⟨[⟨"u", "u@e", "U", 120, 3⟩], [], 0⟩

/-! ### Claim theorems -/

/-- C1: two concurrent Award(u1, 5) calls on a user stored at 0 points, in
the interleaving where both initial selects run before either write phase,
both succeed (both return a result, with newTotal 5 each), yet the final
stored totalPoints is 5 — the first award is lost to the concurrent
overwrite, so the final total differs from oldTotal + the sum of the
awarded points (0 + 5 + 5 = 10).  This refutes the claimed no-lost-update
guarantee on the code as written. -/
theorem race_lost_update :
    (awardPointsRace raceDb "u1" 5 5).map
        (fun r => ((getUser r.1 "u1").map UserRec.totalPoints,
                   r.2.1.newTotal, r.2.2.newTotal))
      = some (some 5, 5, 5) ∧
    (5 : Int) ≠ 0 + 5 + 5 := by
  decide

/-- C2 counterexample: the Award call that lazily creates user u1 with 55
points stores level 1, while floor(55 / 50) + 1 = 2, so the stored level is
not consistent with the stored total after that call. -/
theorem lazyCreate_level_cex :
    getUser (awardPoints dbEmpty "u1" 55).1 "u1"
      = some ⟨"u1", "useru1@example.com", "User u1", 55, 1⟩ ∧
    calculateLevel 55 = 2 ∧ (1 : Int) ≠ 2 := by
  decide

/-- C2 amended: after every successful Award on an already existing user
record, every stored row for that user has level = floor(totalPoints/50)+1;
the Award call that lazily creates the user instead stores level 1 and
totalPoints = points regardless of the points value (consistent with the
formula only when points < 50). -/
theorem level_consistency_amended (db : DB) (userId : String) (points : Int)
    (v : UserRec) (hv : v ∈ (awardPoints db userId points).1.users)
    (hid : v.id = userId) :
    (awardRead db userId ≠ none → v.level = calculateLevel v.totalPoints) ∧
    (awardRead db userId = none → v.level = 1 ∧ v.totalPoints = points) := by
  cases hr : awardRead db userId with
  | none =>
      refine ⟨fun hcon => absurd rfl hcon, fun _ => ?_⟩
      rw [awardPoints_of_read_none hr] at hv
      simp only [awardCreate, insertUser, List.mem_append, List.mem_singleton] at hv
      rcases hv with hv | hv
      · exfalso
        have hnone := List.find?_eq_none.mp hr v hv
        simp [hid] at hnone
      · subst hv; exact ⟨rfl, rfl⟩
  | some u =>
      refine ⟨fun _ => ?_, fun hcon => absurd hcon (by simp [hr])⟩
      rw [awardPoints_of_read_some hr] at hv
      rw [awardUpdate_users] at hv
      simp only [updateUser, List.mem_map] at hv
      obtain ⟨w, hw, hwv⟩ := hv
      split at hwv
      · subst hwv; rfl
      · subst hwv
        rename_i hne
        exact absurd (by simp [hid]) hne

/-- C2 amended, witness: the user stored at 48 points awarded 5 points ends
as the row with totalPoints 53 and level 2 = floor(53/50)+1. -/
theorem level_consistency_amended_witness :
    (⟨"u", "u@e", "U", 53, 2⟩ : UserRec).level
      = calculateLevel (⟨"u", "u@e", "U", 53, 2⟩ : UserRec).totalPoints :=
  (level_consistency_amended db48 "u" 5 ⟨"u", "u@e", "U", 53, 2⟩ (by decide)
    (by decide)).1 (by decide)

/-- C3: evaluating Award at the failing input — bob stored at 95 points is
awarded 10 points, crossing threshold 100, while a hidden_gems achievement
row belonging to a different user (alice) exists.  The claim requires a new
achievement row for bob and unlockedRewards = ["Hidden Gems Discovery"]; the
code instead suppresses the unlock (the existence query filters on the
achievement type alone, because the second chained .where replaces the
first), returning no rewards and inserting nothing for bob. -/
theorem crossUser_suppression_eval :
    (awardPoints dbCross "bob" 10).2.newTotal = 105 ∧
    (awardPoints dbCross "bob" 10).2.unlockedRewards = [] ∧
    ((awardPoints dbCross "bob" 10).1.achievements.filter
        (fun a => a.userId == "bob")).length = 0 ∧
    (95 : Int) < 100 ∧ (100 : Int) ≤ 105 := by
  decide

/-- C4 counterexample: user u1, lazily created with 55 points (and thus
stored level 1), is awarded 5 points.  The code returns levelsGained = 1
(computed against the stored level), while the claimed value
levelOf(60) - levelOf(55) is 0. -/
theorem levelsGained_stored_level_cex :
    getUser db55 "u1" = some ⟨"u1", "useru1@example.com", "User u1", 55, 1⟩ ∧
    (awardPoints db55 "u1" 5).2.levelsGained = 1 ∧
    calculateLevel (55 + 5) - calculateLevel 55 = 0 ∧ (1 : Int) ≠ 0 := by
  decide

/-- C4 amended: for every Award on an existing user record, the returned
levelsGained equals levelOf(newTotal) minus the STORED level (with a stored
level of 0 read back as 1, mirroring the JS fallback).  Whenever the stored
level is consistent with the stored total and points are non-negative, this
coincides with levelOf(newTotal) - levelOf(oldTotal) and is >= 0. -/
theorem levelsGained_amended (db : DB) (userId : String) (points : Int)
    (u : UserRec) (h : awardRead db userId = some u) :
    (awardPoints db userId points).2.levelsGained
        = calculateLevel (u.totalPoints + points) - orDefault u.level 1 ∧
    (u.level = calculateLevel u.totalPoints → 0 ≤ u.totalPoints → 0 ≤ points →
      (awardPoints db userId points).2.levelsGained
          = calculateLevel (u.totalPoints + points) - calculateLevel u.totalPoints ∧
      0 ≤ (awardPoints db userId points).2.levelsGained) := by
  rw [awardPoints_of_read_some h]
  have hbase : (awardUpdate db userId points u).2.levelsGained
      = calculateLevel (u.totalPoints + points) - orDefault u.level 1 := by
    rw [awardUpdate_levelsGained, orDefault_zero]
  refine ⟨hbase, fun hcons hnn hp => ?_⟩
  have hlvl : u.level ≠ 0 := by
    have hpos := calculateLevel_pos hnn
    omega
  rw [hbase, orDefault_of_ne hlvl, hcons]
  have hmono := calculateLevel_mono (show u.totalPoints ≤ u.totalPoints + points by omega)
  exact ⟨rfl, by omega⟩

/-- C4 amended, witness: the user stored at 48 points with consistent level
1, awarded 5 points, gains levelOf(53) - levelOf(48) = 1 level. -/
theorem levelsGained_amended_witness :
    (awardPoints db48 "u" 5).2.levelsGained
        = calculateLevel (48 + 5) - calculateLevel 48 ∧
    0 ≤ (awardPoints db48 "u" 5).2.levelsGained :=
  (levelsGained_amended db48 "u" 5 ⟨"u", "u@e", "U", 48, 1⟩ (by decide)).2
    (by decide) (by decide) (by decide)

/-- C5: starting from any database whose achievements table has at most one
row per (userId, achievementType) pair, any sequence of Award calls
preserves that uniqueness (the existence check runs before every insert);
moreover, in the repeated-crossing example — two awards of 60 points to the
same fresh user, each evaluation passing threshold 100 — exactly one
hidden_gems row exists for that user afterwards. -/
theorem achievement_pair_unique (db : DB) (calls : List (String × Int))
    (h : PairUnique db) :
    PairUnique (awardSeq db calls) ∧
    ((awardSeq dbEmpty [("u", 60), ("u", 60)]).achievements.filter
        (fun a => a.userId == "u" && a.achievementType == "hidden_gems")).length = 1 :=
  ⟨awardSeq_pairUnique calls db h, by decide⟩

/-- C5 witness: the pair-uniqueness invariant holds after a concrete
sequence of awards run from the empty database. -/
theorem achievement_pair_unique_witness :
    PairUnique (awardSeq dbEmpty [("u", 60), ("u", 60), ("u", 100)]) :=
  (achievement_pair_unique dbEmpty [("u", 60), ("u", 60), ("u", 100)]
    (by unfold PairUnique; exact List.Pairwise.nil)).1

/-- C6: the existence check of the threshold-crossing step is keyed on the
achievement type alone.  For any Award call by a user u that crosses a
catalog entry's threshold, if at call time any user at all holds an
achievement row of that entry's type, then no row of that type is created
(in particular none for u) and the entry's display name is not appended to
the returned unlockedRewards. -/
theorem existence_check_type_keyed (db : DB) (userId : String) (points : Int)
    (u : UserRec) (e : RewardEntry)
    (hu : awardRead db userId = some u)
    (he : e ∈ rewardThresholds)
    ( _hcross : orDefault u.totalPoints 0 < e.points ∧
      e.points ≤ orDefault u.totalPoints 0 + points)
    (hex : ∃ a ∈ db.achievements, a.achievementType = e.type) :
    e.name ∉ (awardPoints db userId points).2.unlockedRewards ∧
    ∀ a ∈ (awardPoints db userId points).1.achievements,
      a.achievementType = e.type → a ∈ db.achievements := by
  rw [awardPoints_of_read_some hu]
  obtain ⟨h1, h2⟩ := awardUpdate_suppress db userId points u e.type hex
  refine ⟨fun hn => ?_, h1⟩
  obtain ⟨e2, he2, hname, htype⟩ := h2 e.name hn
  exact htype (rewardThresholds_name_inj e2 he2 e he hname)

/-- C6 witness: bob at 95 points awarded 10 crosses 100, but alice's
hidden_gems row suppresses bob's unlock. -/
theorem existence_check_type_keyed_witness :
    "Hidden Gems Discovery" ∉ (awardPoints dbCross "bob" 10).2.unlockedRewards :=
  (existence_check_type_keyed dbCross "bob" 10 ⟨"bob", "b@e", "Bob", 95, 2⟩
    ⟨100, "hidden_gems", "Hidden Gems Discovery"⟩ (by decide) (by decide) (by decide)
    ⟨⟨"a1", "alice", "hidden_gems", 100⟩, by decide, rfl⟩).1

/-- C7 counterexample: Award with non-positive points (-5) on a user stored
at 10 points does not fail — it succeeds with newTotal 5 and overwrites the
stored row, so the User Store is changed by an invalid call. -/
theorem award_no_validation_cex :
    (awardPoints db10 "u1" (-5)).2.newTotal = 5 ∧
    getUser (awardPoints db10 "u1" (-5)).1 "u1" = some ⟨"u1", "u1@e", "U1", 5, 1⟩ ∧
    ¬(0 : Int) < -5 := by
  decide

/-- C7 amended: Award performs no input validation at all.  For every call
on an existing user record — with any points value, including non-positive
ones, and any userId, including the empty string — the call succeeds,
returns newTotal = oldTotal + points, and writes that total to every stored
row of that user. -/
theorem award_no_validation_amended (db : DB) (userId : String) (points : Int)
    (u : UserRec) (h : awardRead db userId = some u) :
    (awardPoints db userId points).2.newTotal = u.totalPoints + points ∧
    ∀ v ∈ (awardPoints db userId points).1.users, v.id = userId →
      v.totalPoints = u.totalPoints + points := by
  rw [awardPoints_of_read_some h]
  constructor
  · rw [awardUpdate_newTotal, orDefault_zero]
  · intro v hv hid
    rw [awardUpdate_users] at hv
    simp only [updateUser, List.mem_map] at hv
    obtain ⟨w, hw, hwv⟩ := hv
    split at hwv
    · subst hwv
      show orDefault u.totalPoints 0 + points = u.totalPoints + points
      rw [orDefault_zero]
    · subst hwv
      rename_i hne
      exact absurd (by simp [hid]) hne

/-- C7 amended, witness: a call with the empty userId and points -5 on a
matching stored row succeeds and returns newTotal 10 + (-5). -/
theorem award_no_validation_amended_witness :
    (awardPoints dbEmptyId "" (-5)).2.newTotal = 10 + (-5 : Int) :=
  (award_no_validation_amended dbEmptyId "" (-5) ⟨"", "e@e", "E", 10, 1⟩ (by decide)).1

/-- C8: for every unlock_reward call with a usable userId and a catalog
reward type of threshold T, if the user's current points are below T the
handler returns the insufficient-points result carrying required = T,
current = points, deficit = T - points, with the database unchanged; if the
points reach T it returns the static reward content, also with the database
unchanged. -/
theorem unlock_reward_gate (db : DB) (userId rewardType : String) (threshold : Int)
    (hu1 : userId ≠ "") (hu2 : userId ≠ "anonymous")
    (ht : lookupRequired rewardType = some threshold) :
    ((getUserProgress db userId).2.points < threshold →
      unlockRewardHandler db userId rewardType
        = (db, UnlockOutcome.insufficient threshold (getUserProgress db userId).2.points
            (threshold - (getUserProgress db userId).2.points))) ∧
    (threshold ≤ (getUserProgress db userId).2.points →
      unlockRewardHandler db userId rewardType = (db, UnlockOutcome.success rewardType)) := by
  have hcond : (userId == "" || userId == "anonymous") = false := by
    simp [hu1, hu2]
  have hdb : (getUserProgress db userId).1 = db := by
    unfold getUserProgress
    cases getUser db userId <;> rfl
  constructor
  · intro hlt
    unfold unlockRewardHandler
    rw [hcond, ht]
    simp only [Bool.false_eq_true, if_false]
    rw [if_pos hlt, hdb]
  · intro hge
    unfold unlockRewardHandler
    rw [hcond, ht]
    simp only [Bool.false_eq_true, if_false]
    rw [if_neg (by omega), hdb]

/-- C8 witness: unlock_reward for photography_spots on a user stored at 290
points yields required 300, current 290, deficit 10, with no mutation. -/
theorem unlock_reward_gate_witness :
    unlockRewardHandler db290 "u" "photography_spots"
      = (db290, UnlockOutcome.insufficient 300 290 10) := by
  have h := (unlock_reward_gate db290 "u" "photography_spots" 300 (by decide) (by decide)
    (by decide)).1 (by decide)
  exact h

/-- C9 counterexample: for a user at 300 points every catalog threshold is
reached, and the code returns the next-reward name "All rewards unlocked!"
(with a trailing exclamation mark), not "All rewards unlocked" as claimed. -/
theorem nextReward_name_cex :
    (getUserProgress db300 "u").2.nextRewardName = "All rewards unlocked!" ∧
    (getUserProgress db300 "u").2.nextRewardPointsNeeded = 0 ∧
    "All rewards unlocked!" ≠ "All rewards unlocked" := by
  decide

/-- C9 amended: for every stored user, GetProgress returns as nextReward the
value of getNextReward on the user's points; and for every points value p,
getNextReward returns the lowest-threshold catalog entry whose threshold
exceeds p together with pointsNeeded = threshold - p, or, when every
threshold is <= p, the pair ("All rewards unlocked!", 0) — the stored
all-unlocked name carrying a trailing exclamation mark. -/
theorem nextReward_amended (db : DB) (userId : String) (u : UserRec)
    (h : getUser db userId = some u) :
    ((getUserProgress db userId).2.nextRewardName,
        (getUserProgress db userId).2.nextRewardPointsNeeded)
      = getNextReward (orDefault u.totalPoints 0) ∧
    ∀ p : Int,
      (∃ th name2, (th, name2) ∈ nextRewardList ∧ p < th ∧
          getNextReward p = (name2, th - p) ∧
          ∀ th2 name3, (th2, name3) ∈ nextRewardList → p < th2 → th ≤ th2) ∨
      ((∀ th name2, (th, name2) ∈ nextRewardList → th ≤ p) ∧
          getNextReward p = ("All rewards unlocked!", 0)) := by
  constructor
  · simp [getUserProgress, h]
  · intro p
    by_cases h50 : p < 50
    · refine Or.inl ⟨50, "Restaurant Finder", by decide, h50, ?_, ?_⟩
      · unfold getNextReward nextRewardList getNextRewardAux
        rw [if_pos h50]
      · intro th2 name3 hmem _
        simp only [nextRewardList, List.mem_cons, List.not_mem_nil, or_false,
          Prod.mk.injEq] at hmem
        rcases hmem with ⟨h1, _⟩ | ⟨h1, _⟩ | ⟨h1, _⟩ | ⟨h1, _⟩ <;> omega
    · by_cases h100 : p < 100
      · refine Or.inl ⟨100, "Hidden Gems Discovery", by decide, h100, ?_, ?_⟩
        · simp only [getNextReward, nextRewardList, getNextRewardAux]
          rw [if_neg h50, if_pos h100]
        · intro th2 name3 hmem hlt
          simp only [nextRewardList, List.mem_cons, List.not_mem_nil, or_false,
            Prod.mk.injEq] at hmem
          rcases hmem with ⟨h1, _⟩ | ⟨h1, _⟩ | ⟨h1, _⟩ | ⟨h1, _⟩ <;> omega
      · by_cases h200 : p < 200
        · refine Or.inl ⟨200, "Local Food Specialties", by decide, h200, ?_, ?_⟩
          · simp only [getNextReward, nextRewardList, getNextRewardAux]
            rw [if_neg h50, if_neg h100, if_pos h200]
          · intro th2 name3 hmem hlt
            simp only [nextRewardList, List.mem_cons, List.not_mem_nil, or_false,
              Prod.mk.injEq] at hmem
            rcases hmem with ⟨h1, _⟩ | ⟨h1, _⟩ | ⟨h1, _⟩ | ⟨h1, _⟩ <;> omega
        · by_cases h300 : p < 300
          · refine Or.inl ⟨300, "Photography Spots", by decide, h300, ?_, ?_⟩
            · simp only [getNextReward, nextRewardList, getNextRewardAux]
              rw [if_neg h50, if_neg h100, if_neg h200, if_pos h300]
            · intro th2 name3 hmem hlt
              simp only [nextRewardList, List.mem_cons, List.not_mem_nil, or_false,
                Prod.mk.injEq] at hmem
              rcases hmem with ⟨h1, _⟩ | ⟨h1, _⟩ | ⟨h1, _⟩ | ⟨h1, _⟩ <;> omega
          · refine Or.inr ⟨?_, ?_⟩
            · intro th2 name3 hmem
              simp only [nextRewardList, List.mem_cons, List.not_mem_nil, or_false,
                Prod.mk.injEq] at hmem
              rcases hmem with ⟨h1, _⟩ | ⟨h1, _⟩ | ⟨h1, _⟩ | ⟨h1, _⟩ <;> omega
            · simp only [getNextReward, nextRewardList, getNextRewardAux]
              rw [if_neg h50, if_neg h100, if_neg h200, if_neg h300]

/-- C9 amended, witness: a user stored at 120 points gets the next reward
from getNextReward 120, i.e. Local Food Specialties in 80 more points. -/
theorem nextReward_amended_witness :
    ((getUserProgress db120 "u").2.nextRewardName,
        (getUserProgress db120 "u").2.nextRewardPointsNeeded)
      = getNextReward (orDefault 120 0) ∧
    getNextReward (orDefault 120 0) = ("Local Food Specialties", 80) :=
  ⟨(nextReward_amended db120 "u" ⟨"u", "u@e", "U", 120, 3⟩ (by decide)).1, by decide⟩

/-- C10: GetProgress on a userId with no stored record returns points 0,
level 1, no achievements, and next reward Restaurant Finder in 50 points,
with the database returned unchanged — the call creates nothing. -/
theorem getProgress_unseen_user (db : DB) (userId : String)
    (h : getUser db userId = none) :
    getUserProgress db userId
      = (db, { points := 0, level := 1, achievements := [],
               nextRewardName := "Restaurant Finder", nextRewardPointsNeeded := 50 }) := by
  unfold getUserProgress
  rw [h]

/-- C10 witness: GetProgress on the empty database for an unseen userId. -/
theorem getProgress_unseen_user_witness :
    getUserProgress dbEmpty "nobody"
      = (dbEmpty, { points := 0, level := 1, achievements := [],
                    nextRewardName := "Restaurant Finder", nextRewardPointsNeeded := 50 }) :=
  getProgress_unseen_user dbEmpty "nobody" rfl

end TravelAssistant
